import Mathlib

/-!
Verification of the pipeline core of the `python_ai_service` application
(TvWallauShop).  Python strings are modelled as lists of characters,
floating point scores as rationals, and Python dictionaries keyed by tag
value as lookup functions / association folds.  Every definition mirrors a
function of the source tree (module and function named in its doc comment);
opaque neural-network calls are taken as function parameters.
-/

attribute [local semireducible] Rat.add Rat.mul Rat.inv

namespace TvWallau

/-- A Python `str`, modelled as its list of characters. -/
abbrev PyStr := List Char

/-- Coerce a Lean string literal into the model. -/
def pyStr (s : String) : PyStr := s.data

/-- Characters stripped by Python's `str.strip()` (whitespace). -/
def pyWsB (c : Char) : Bool := c.isWhitespace

/-- Python `str.strip()`: drop leading and trailing whitespace. -/
def pyStrip (s : PyStr) : PyStr :=
  ((s.dropWhile pyWsB).reverse.dropWhile pyWsB).reverse

/-- Python `str.lower()` (character-wise, as for the ASCII device/tag data). -/
def pyLower (s : PyStr) : PyStr := s.map Char.toLower

/-- Python `str.upper()` (character-wise). -/
def pyUpper (s : PyStr) : PyStr := s.map Char.toUpper

/-- Accumulator worker for `pySplitWs` (the accumulator holds the current
word reversed). -/
def splitWsAux : PyStr → PyStr → List PyStr
  | acc, [] => if acc.isEmpty then [] else [acc.reverse]
  | acc, c :: rest =>
    if pyWsB c then
      if acc.isEmpty then splitWsAux [] rest
      else acc.reverse :: splitWsAux [] rest
    else splitWsAux (c :: acc) rest

/-- Python `str.split()` with no argument: split on runs of whitespace,
discarding empty pieces. -/
def pySplitWs (s : PyStr) : List PyStr := splitWsAux [] s

/-- Python `" ".join(pieces)`. -/
def pyJoinSpace (pieces : List PyStr) : PyStr := List.intercalate [' '] pieces

/-! ## `app/services/pipeline/multi_image.py` -/

/-- `contracts_models.Tag`: `value: str`, `score: Optional[float] = None`,
`source: str`. -/
structure Tag where
  value : PyStr
  score : Option ℚ
  source : PyStr
deriving DecidableEq, Repr

/-- `multi_image.TagMergeResult`. -/
structure TagMergeResult where
  tags_for_llm : List PyStr
  merged_tags : List Tag
  intersection : List PyStr
  strategy : PyStr
  fallback : Option PyStr
deriving DecidableEq, Repr

/-- `multi_image.normalize_tag_value`:
`" ".join(value.strip().lower().split())`. -/
def normalize_tag_value (value : PyStr) : PyStr :=
  pyJoinSpace (pySplitWs (pyLower (pyStrip value)))

/-- Python `tag.score or 0.0`: a `None` (and a zero) score collapses to
`0.0`. -/
def scoreOr0 (s : Option ℚ) : ℚ := s.getD 0

/-- Membership test of a value in the running dedup list (the Python
`normalized_value not in deduped` check on the dict's keys). -/
def containsValue (l : List Tag) (v : PyStr) : Bool := l.any (fun u => u.value = v)

/-- The dict update of `normalize_scored_tags` when the value is already
present: replace the stored tag iff the incoming score
(`tag.score or 0.0`) strictly exceeds the stored one. -/
def updateExisting (l : List Tag) (t : Tag) : List Tag :=
  match l with
  | [] => []
  | u :: rest =>
    if u.value = t.value then
      (if scoreOr0 t.score > scoreOr0 u.score then t else u) :: rest
    else u :: updateExisting rest t

/-- `multi_image.normalize_scored_tags`: normalize every value, drop empty
values, de-duplicate preserving first-occurrence order, keeping the
higher-scored tag on a repeat.  The Python `deduped` dict plus `order` list
is modelled as one ordered association list. -/
def normalize_scored_tags (tags : List Tag) : List Tag :=
  tags.foldl
    (fun acc tag =>
      let nv := normalize_tag_value tag.value
      if nv = [] then acc
      else if containsValue acc nv then
        updateExisting acc { value := nv, score := tag.score, source := tag.source }
      else acc ++ [{ value := nv, score := tag.score, source := tag.source }])
    []

/-- `multi_image._average_tag_score`: mean of the non-`None` scores,
`0.0` when there are none. -/
def average_tag_score (tags : List Tag) : ℚ :=
  let scores := tags.filterMap (fun t => t.score)
  if scores = [] then 0 else scores.sum / scores.length

/-- `normalize.normalize_tags`: normalize each value, drop empties and
duplicates, preserving order (`seen` set modelled by `acc.contains`). -/
def normalize_tags (tags : List PyStr) : List PyStr :=
  tags.foldl
    (fun acc tag =>
      let value := normalize_tag_value tag
      if value = [] ∨ acc.contains value then acc else acc ++ [value])
    []

/-- The per-image normalized tag lists of `merge_tags_for_images`. -/
def normalized_per_image (tags_per_image : List (List Tag)) : List (List Tag) :=
  tags_per_image.map normalize_scored_tags

/-- The per-image value lists of `merge_tags_for_images`. -/
def values_per_image (tags_per_image : List (List Tag)) : List (List PyStr) :=
  (normalized_per_image tags_per_image).map (fun tags => tags.map (fun t => t.value))

/-- `intersection_ordered` of `merge_tags_for_images`: the first image's
values filtered by membership in every later image's value set (membership
in `set(values_per_image[0])` is automatic). -/
def intersection_ordered (vpi : List (List PyStr)) : List PyStr :=
  match vpi with
  | [] => []
  | first :: rest => first.filter (fun v => rest.all (fun vs => vs.contains v))

/-- The final `score_map.get(v, 0.0)` of `merge_tags_for_images`, viewed one
key at a time: fold all normalized tags, replacing the running value (default
`0.0`) whenever an occurrence of `v` has a strictly greater
`tag.score or 0.0`.  Per-key folding is equivalent to the Python dict build
because updates to distinct keys are independent. -/
def score_map_lookup (npi : List (List Tag)) (v : PyStr) : ℚ :=
  npi.foldl
    (fun acc tags =>
      tags.foldl
        (fun a t => if t.value = v ∧ scoreOr0 t.score > a then scoreOr0 t.score else a)
        acc)
    0

/-- First index of the maximum (Python `max(range(n), key=...)` keeps the
first maximal element): worker. -/
def argmaxAux (bestIdx : ℕ) (bestVal : ℚ) (idx : ℕ) : List ℚ → ℕ
  | [] => bestIdx
  | x :: xs =>
    if x > bestVal then argmaxAux idx x (idx + 1) xs
    else argmaxAux bestIdx bestVal (idx + 1) xs

/-- `selected_index = max(range(len(avg_scores)), key=...)` of
`merge_tags_for_images`. -/
def argmax_first : List ℚ → ℕ
  | [] => 0
  | x :: xs => argmaxAux 0 x 1 xs

/-- `multi_image.merge_tags_for_images`. -/
def merge_tags_for_images (tags_per_image : List (List Tag)) (max_tags : ℕ) :
    TagMergeResult :=
  if tags_per_image = [] then
    { tags_for_llm := [], merged_tags := [], intersection := []
      strategy := pyStr "intersection_all", fallback := none }
  else
    let npi := normalized_per_image tags_per_image
    let vpi := values_per_image tags_per_image
    let inter := intersection_ordered vpi
    if inter ≠ [] then
      let merged_tags := inter.map
        (fun value => { value := value, score := some (score_map_lookup npi value)
                        source := pyStr "clip" : Tag })
      { tags_for_llm := (normalize_tags inter).take max_tags
        merged_tags := merged_tags.take max_tags
        intersection := inter
        strategy := pyStr "intersection_all"
        fallback := none }
    else
      let avg_scores := npi.map average_tag_score
      let selected_index := argmax_first avg_scores
      let selected := npi.getD selected_index []
      let fallback := pyStr "highest_avg_score_image_" ++ (Nat.repr (selected_index + 1)).data
      { tags_for_llm := (normalize_tags (selected.map (fun t => t.value))).take max_tags
        merged_tags := selected.take max_tags
        intersection := []
        strategy := pyStr "intersection_all"
        fallback := some fallback }

/-- All scores (with `None` as `0.0`, as the source compares them) achieved
by value `v` anywhere in the normalized per-image lists. -/
def achieved_scores (npi : List (List Tag)) (v : PyStr) : List ℚ :=
  (((npi.foldr (· ++ ·) []).filter (fun t => t.value == v)).map
    (fun t => scoreOr0 t.score))

theorem strict_if_max (a s : ℚ) : (if s > a then s else a) = max a s := by
  rcases le_or_lt s a with h | h
  · rw [if_neg (not_lt.mpr h), max_eq_left h]
  · rw [if_pos h, max_eq_right (le_of_lt h)]

theorem foldr_max_swap (L : List ℚ) (a b : ℚ) :
    L.foldr max (max a b) = max b (L.foldr max a) := by
  induction L with
  | nil => exact max_comm a b
  | cons x t ih => simpa [List.foldr_cons, ih] using max_left_comm x b (t.foldr max a)

theorem foldr_max_comm2 (L1 L2 : List ℚ) (acc : ℚ) :
    L1.foldr max (L2.foldr max acc) = L2.foldr max (L1.foldr max acc) := by
  induction L1 with
  | nil => rfl
  | cons x t ih =>
    have := foldr_max_swap L2 (t.foldr max acc) x
    simp only [List.foldr_cons, ih]
    rw [← this, max_comm (t.foldr max acc) x]

theorem score_tags_foldl (v : PyStr) (tags : List Tag) (acc : ℚ) :
    tags.foldl
      (fun a t => if t.value = v ∧ scoreOr0 t.score > a then scoreOr0 t.score else a)
      acc
    = ((tags.filter (fun t => t.value == v)).map (fun t => scoreOr0 t.score)).foldr
        max acc := by
  induction tags generalizing acc with
  | nil => rfl
  | cons t rest ih =>
    by_cases h : t.value = v
    · have hstep :
          (if t.value = v ∧ scoreOr0 t.score > acc then scoreOr0 t.score else acc)
            = max acc (scoreOr0 t.score) := by
        simp only [h, true_and]
        exact strict_if_max acc (scoreOr0 t.score)
      have hbeq : (t.value == v) = true := beq_iff_eq.mpr h
      rw [List.foldl_cons, hstep, ih, List.filter_cons, hbeq]
      simp only [if_pos, List.map_cons, List.foldr_cons]
      exact foldr_max_swap _ acc (scoreOr0 t.score)
    · have hstep :
          (if t.value = v ∧ scoreOr0 t.score > acc then scoreOr0 t.score else acc)
            = acc := by
        rw [if_neg]; intro hc; exact h hc.1
      have hbeq : (t.value == v) = false := beq_eq_false_iff_ne.mpr h
      rw [List.foldl_cons, hstep, ih, List.filter_cons, hbeq]
      simp

theorem score_map_lookup_foldl (v : PyStr) (npi : List (List Tag)) (acc : ℚ) :
    npi.foldl
      (fun acc tags =>
        tags.foldl
          (fun a t => if t.value = v ∧ scoreOr0 t.score > a then scoreOr0 t.score else a)
          acc)
      acc
    = (achieved_scores npi v).foldr max acc := by
  induction npi generalizing acc with
  | nil => rfl
  | cons tags rest ih =>
    rw [List.foldl_cons, ih, score_tags_foldl]
    have hsplit : achieved_scores (tags :: rest) v
        = ((tags.filter (fun t => t.value == v)).map (fun t => scoreOr0 t.score))
          ++ achieved_scores rest v := by
      simp [achieved_scores, List.filter_append, List.map_append]
    rw [hsplit, List.foldr_append]
    exact foldr_max_comm2 _ _ acc

/-- The Python `score_map` lookup computes the maximum of `0.0` and all
scores the value achieved (a value whose achieved scores are all negative
keeps the `0.0` default, because updates require a strict increase over it). -/
theorem score_map_lookup_eq (npi : List (List Tag)) (v : PyStr) :
    score_map_lookup npi v = (achieved_scores npi v).foldr max 0 :=
  score_map_lookup_foldl v npi 0

theorem argmaxAux_of_all_lt (xs : List ℚ) (bestIdx idx : ℕ) (bestVal : ℚ)
    (h : ∀ x ∈ xs, x < bestVal) : argmaxAux bestIdx bestVal idx xs = bestIdx := by
  induction xs generalizing idx with
  | nil => rfl
  | cons x t ih =>
    rw [argmaxAux, if_neg (not_lt.mpr (le_of_lt (h x (List.mem_cons_self x t))))]
    exact ih (idx + 1) fun y hy => h y (List.mem_cons_of_mem x hy)

theorem argmaxAux_reach (xs : List ℚ) (k bestIdx idx : ℕ) (bestVal : ℚ)
    (hk : k < xs.length)
    (hbest : bestVal < xs.getD k 0)
    (hdom : ∀ j < xs.length, j ≠ k → xs.getD j 0 < xs.getD k 0) :
    argmaxAux bestIdx bestVal idx xs = idx + k := by
  induction xs generalizing k bestIdx idx bestVal with
  | nil => exact absurd hk (Nat.not_lt_zero k)
  | cons x t ih =>
    cases k with
    | zero =>
      simp only [List.getD_cons_zero] at hbest
      rw [argmaxAux, if_pos hbest]
      have hall : ∀ y ∈ t, y < x := by
        intro y hy
        obtain ⟨j, hj, rfl⟩ := List.mem_iff_getElem.mp hy
        have hd := hdom (j + 1) (by simpa using Nat.succ_lt_succ hj) (Nat.succ_ne_zero j)
        simpa [List.getD_cons_succ, List.getD_cons_zero,
          List.getElem?_eq_getElem hj] using hd
      rw [argmaxAux_of_all_lt t idx (idx + 1) x hall]
      omega
    | succ m =>
      have hm : m < t.length := Nat.lt_of_succ_lt_succ (by simpa using hk)
      have hdomt : ∀ j < t.length, j ≠ m → t.getD j 0 < t.getD m 0 := by
        intro j hj hne
        have hd := hdom (j + 1) (by simpa using Nat.succ_lt_succ hj) (by omega)
        simpa [List.getD_cons_succ] using hd
      by_cases hx : x > bestVal
      · rw [argmaxAux, if_pos hx]
        have hxlt : x < t.getD m 0 := by
          have hd := hdom 0 (by simp) (by omega)
          simpa [List.getD_cons_zero, List.getD_cons_succ] using hd
        rw [ih m idx (idx + 1) x hm hxlt hdomt]
        omega
      · rw [argmaxAux, if_neg hx]
        have hb : bestVal < t.getD m 0 := by simpa [List.getD_cons_succ] using hbest
        rw [ih m bestIdx (idx + 1) bestVal hm hb hdomt]
        omega

theorem argmax_first_eq (l : List ℚ) (k : ℕ) (hk : k < l.length)
    (hdom : ∀ j < l.length, j ≠ k → l.getD j 0 < l.getD k 0) :
    argmax_first l = k := by
  cases l with
  | nil => exact absurd hk (Nat.not_lt_zero k)
  | cons a xs =>
    cases k with
    | zero =>
      rw [argmax_first]
      apply argmaxAux_of_all_lt
      intro y hy
      obtain ⟨j, hj, rfl⟩ := List.mem_iff_getElem.mp hy
      have hd := hdom (j + 1) (by simpa using Nat.succ_lt_succ hj) (Nat.succ_ne_zero j)
      simpa [List.getD_cons_succ, List.getD_cons_zero,
        List.getElem?_eq_getElem hj] using hd
    | succ m =>
      rw [argmax_first]
      have hm : m < xs.length := Nat.lt_of_succ_lt_succ (by simpa using hk)
      have hb : a < xs.getD m 0 := by
        have hd := hdom 0 (by simp) (by omega)
        simpa [List.getD_cons_zero, List.getD_cons_succ] using hd
      have hdomt : ∀ j < xs.length, j ≠ m → xs.getD j 0 < xs.getD m 0 := by
        intro j hj hne
        have hd := hdom (j + 1) (by simpa using Nat.succ_lt_succ hj) (by omega)
        simpa [List.getD_cons_succ] using hd
      rw [argmaxAux_reach xs m 0 1 a hm hb hdomt]
      omega

theorem values_per_image_ne_nil {tpi : List (List Tag)} (hne : tpi ≠ []) :
    values_per_image tpi ≠ [] := by
  simp [values_per_image, normalized_per_image, hne]

/-- C1 (amended): for a non-empty list of per-image tag lists with a
non-empty normalized intersection, `merge_tags_for_images` reports strategy
`intersection_all`, no fallback, the intersection field equal to the first
image's normalized values restricted to those shared by every image (order
preserved), membership in the intersection exactly when each image's
normalized values contain it, and the merged tags (truncated to the tag
budget) carrying as score the maximum of `0` and all scores the value
achieved across the images (missing scores counting as `0`). -/
theorem merge_tags_intersection_spec
    (tpi : List (List Tag)) (max_tags : ℕ)
    (hne : tpi ≠ [])
    (hint : intersection_ordered (values_per_image tpi) ≠ []) :
    (merge_tags_for_images tpi max_tags).strategy = pyStr "intersection_all" ∧
    (merge_tags_for_images tpi max_tags).fallback = none ∧
    (merge_tags_for_images tpi max_tags).intersection
        = intersection_ordered (values_per_image tpi) ∧
    (∀ v, v ∈ (merge_tags_for_images tpi max_tags).intersection
        ↔ ∀ vs ∈ values_per_image tpi, v ∈ vs) ∧
    (merge_tags_for_images tpi max_tags).merged_tags
        = ((intersection_ordered (values_per_image tpi)).map
            (fun v =>
              { value := v
                score := some ((achieved_scores (normalized_per_image tpi) v).foldr max 0)
                source := pyStr "clip" : Tag })).take max_tags := by
  have hm : merge_tags_for_images tpi max_tags =
      { tags_for_llm := (normalize_tags (intersection_ordered (values_per_image tpi))).take max_tags
        merged_tags := ((intersection_ordered (values_per_image tpi)).map
            (fun value =>
              { value := value
                score := some (score_map_lookup (normalized_per_image tpi) value)
                source := pyStr "clip" : Tag })).take max_tags
        intersection := intersection_ordered (values_per_image tpi)
        strategy := pyStr "intersection_all"
        fallback := none } := by
    rw [merge_tags_for_images, if_neg hne]
    simp only [hint, ne_eq, not_false_eq_true, if_true, ite_true]
  obtain ⟨first, rest, hfr⟩ := List.exists_cons_of_ne_nil (values_per_image_ne_nil hne)
  refine ⟨by rw [hm], by rw [hm], by rw [hm], ?_, ?_⟩
  · intro v
    rw [hm]
    show v ∈ intersection_ordered (values_per_image tpi) ↔ _
    rw [hfr, intersection_ordered]
    simp [List.mem_filter, List.forall_mem_cons, List.all_eq_true]
  · rw [hm]
    have hfun :
        (fun value =>
          { value := value
            score := some (score_map_lookup (normalized_per_image tpi) value)
            source := pyStr "clip" : Tag })
        = (fun v =>
          { value := v
            score := some ((achieved_scores (normalized_per_image tpi) v).foldr max 0)
            source := pyStr "clip" : Tag }) := by
      funext v
      rw [score_map_lookup_eq]
    rw [hfun]

/-- C1 counterexample: one shared tag `"red"` whose only achieved scores are
`-1/2` ends up carrying merged score `0`, not the maximum achieved score
`-1/2`, refuting the claim that each surviving tag's score equals the
maximum score the value achieved across the images. -/
theorem merge_tags_intersection_negative_score_cex :
    (merge_tags_for_images
        [[{ value := pyStr "red", score := some (-1/2), source := pyStr "clip" }],
         [{ value := pyStr "red", score := some (-1/2), source := pyStr "clip" }]]
        5).merged_tags
      = [{ value := pyStr "red", score := some 0, source := pyStr "clip" }] ∧
    ¬ ((0 : ℚ) = -1/2) := by
  constructor
  · decide
  · norm_num

/-- Example image A of the spec's intersection scenario. -/
def exTagsA1 : List Tag :=
  [{ value := pyStr "Red   Shoes", score := some (9/10), source := pyStr "clip" },
   { value := pyStr "Leather", score := some (7/10), source := pyStr "clip" }]

/-- Example image B of the spec's intersection scenario. -/
def exTagsA2 : List Tag :=
  [{ value := pyStr "red shoes", score := some (6/10), source := pyStr "clip" },
   { value := pyStr "Running", score := some (5/10), source := pyStr "clip" }]

/-- Witness for C1 at the spec's own example (`"Red   Shoes"`/`"red shoes"`
intersect after normalization). -/
theorem merge_tags_intersection_spec_witness :
    ([exTagsA1, exTagsA2] ≠ ([] : List (List Tag))) ∧
    intersection_ordered (values_per_image [exTagsA1, exTagsA2]) ≠ [] ∧
    (merge_tags_for_images [exTagsA1, exTagsA2] 5).strategy = pyStr "intersection_all" ∧
    (merge_tags_for_images [exTagsA1, exTagsA2] 5).fallback = none :=
  ⟨by decide, by decide,
    (merge_tags_intersection_spec [exTagsA1, exTagsA2] 5 (by decide) (by decide)).1,
    (merge_tags_intersection_spec [exTagsA1, exTagsA2] 5 (by decide) (by decide)).2.1⟩

/-- C2: with a non-empty input whose normalized tag value sets have empty
intersection, `merge_tags_for_images` falls back to the image whose
deduplicated tags have the strictly highest mean score (mean over the
non-`None` scores, as `_average_tag_score` computes it): the result is that
image's deduplicated, order-preserved tag list truncated to the tag budget,
and the fallback field names that image's 1-based index. -/
theorem merge_tags_fallback_spec
    (tpi : List (List Tag)) (max_tags k : ℕ)
    (hk : k < tpi.length)
    (hint : intersection_ordered (values_per_image tpi) = [])
    (hwin : ∀ j < tpi.length, j ≠ k →
      average_tag_score ((normalized_per_image tpi).getD j []) <
        average_tag_score ((normalized_per_image tpi).getD k [])) :
    (merge_tags_for_images tpi max_tags).strategy = pyStr "intersection_all" ∧
    (merge_tags_for_images tpi max_tags).intersection = [] ∧
    (merge_tags_for_images tpi max_tags).fallback
        = some (pyStr "highest_avg_score_image_" ++ (Nat.repr (k + 1)).data) ∧
    (merge_tags_for_images tpi max_tags).merged_tags
        = ((normalized_per_image tpi).getD k []).take max_tags ∧
    (merge_tags_for_images tpi max_tags).tags_for_llm
        = (normalize_tags (((normalized_per_image tpi).getD k []).map
            (fun t => t.value))).take max_tags := by
  have hne : tpi ≠ [] := by
    intro h
    rw [h] at hk
    exact absurd hk (Nat.not_lt_zero k)
  have hlen : (normalized_per_image tpi).length = tpi.length := by
    simp [normalized_per_image]
  have hmaplen : ((normalized_per_image tpi).map average_tag_score).length = tpi.length := by
    simp [hlen]
  have hmap : ∀ j, j < tpi.length →
      ((normalized_per_image tpi).map average_tag_score).getD j 0
        = average_tag_score ((normalized_per_image tpi).getD j []) := by
    intro j hj
    have hj' : j < (normalized_per_image tpi).length := by rw [hlen]; exact hj
    rw [List.getD_eq_getElem _ 0 (by simpa using hj'), List.getElem_map,
      List.getD_eq_getElem _ [] hj']
  have hsel : argmax_first ((normalized_per_image tpi).map average_tag_score) = k := by
    apply argmax_first_eq
    · rw [hmaplen]; exact hk
    · intro j hj hne'
      rw [hmaplen] at hj
      rw [hmap j hj, hmap k hk]
      exact hwin j hj hne'
  have hm : merge_tags_for_images tpi max_tags =
      { tags_for_llm := (normalize_tags (((normalized_per_image tpi).getD k []).map
            (fun t => t.value))).take max_tags
        merged_tags := ((normalized_per_image tpi).getD k []).take max_tags
        intersection := []
        strategy := pyStr "intersection_all"
        fallback := some (pyStr "highest_avg_score_image_" ++ (Nat.repr (k + 1)).data) } := by
    rw [merge_tags_for_images, if_neg hne]
    simp only [hint, ne_eq, not_true_eq_false, if_false, ite_false, hsel]
  exact ⟨by rw [hm], by rw [hm], by rw [hm], by rw [hm], by rw [hm]⟩

/-- Example image 1 of the spec's fallback scenario (mean score `17/20`). -/
def exTagsB1 : List Tag :=
  [{ value := pyStr "Floral", score := some (9/10), source := pyStr "clip" },
   { value := pyStr "Dress", score := some (8/10), source := pyStr "clip" }]

/-- Example image 2 of the spec's fallback scenario (mean score `1/4`). -/
def exTagsB2 : List Tag :=
  [{ value := pyStr "Denim", score := some (3/10), source := pyStr "clip" },
   { value := pyStr "Jacket", score := some (2/10), source := pyStr "clip" }]

/-- Witness for C2 at the spec's own example (disjoint tag sets, image 1
mean `0.85` beats image 2 mean `0.25`, fallback names image 1). -/
theorem merge_tags_fallback_spec_witness :
    (0 < ([exTagsB1, exTagsB2] : List (List Tag)).length) ∧
    intersection_ordered (values_per_image [exTagsB1, exTagsB2]) = [] ∧
    (merge_tags_for_images [exTagsB1, exTagsB2] 2).fallback
      = some (pyStr "highest_avg_score_image_" ++ (Nat.repr (0 + 1)).data) :=
  ⟨by decide, by decide,
    (merge_tags_fallback_spec [exTagsB1, exTagsB2] 2 0 (by decide) (by decide)
      (by decide)).2.2.1⟩

/-! ## `app/services/errors.py` and `app/services/pipeline/captioner_openvino.py` -/

/-- `errors.AiServiceError` (the structured `details` dict and the optional
`job_id` are omitted from the model; claims only inspect `code`, `message`
and `http_status`). -/
structure AiServiceError where
  code : PyStr
  message : PyStr
  http_status : ℕ
deriving DecidableEq, Repr

/-- One invocation of the compiled BLIP text decoder inside
`Captioner._generate_caption`: the `input_ids` and `attention_mask` rows
passed to `_decode` (the leading batch dimension, always of size 1, is
dropped). -/
structure DecoderCall where
  input_ids : List ℕ
  attention_mask : List ℕ
deriving DecidableEq, Repr

/-- The decoding-relevant configuration read in `Captioner.__init__`:
`bos_token_id = tokenizer.bos_token_id or tokenizer.cls_token_id or 0`,
`eos_token_id` (possibly `None`) and
`max_length = min(model_max_length, 30)`. -/
structure CaptionerCfg where
  bos_token_id : ℕ
  eos_token_id : Option ℕ
  max_length : ℕ
deriving DecidableEq, Repr

/-- `self.max_length = min(getattr(self.tokenizer, "model_max_length", 30), 30)`. -/
def captioner_max_length (model_max_length : ℕ) : ℕ := min model_max_length 30

/-- The `for step in range(self.max_length)` loop of
`Captioner._generate_caption`.  The compiled decoder graph followed by
`argmax(logits[:, -1, :])` is abstracted as `next_token_of` (a function of
the current `input_ids` row); each iteration records the decoder invocation
it performs.  The first argument is the number of remaining iterations. -/
def caption_loop (next_token_of : List ℕ → ℕ) (eos : Option ℕ) :
    ℕ → List ℕ → List DecoderCall → List ℕ × List DecoderCall
  | 0, input_ids, calls => (input_ids, calls)
  | fuel + 1, input_ids, calls =>
    let attention_mask := input_ids.map (fun _ => 1)
    let call : DecoderCall := { input_ids := input_ids, attention_mask := attention_mask }
    let next_token := next_token_of input_ids
    let input_ids2 := input_ids ++ [next_token]
    if eos = some next_token then (input_ids2, calls ++ [call])
    else caption_loop next_token_of eos fuel input_ids2 (calls ++ [call])

/-- `Captioner._generate_caption`: seed `[bos]`, run the loop, then
`tokenizer.decode(..., skip_special_tokens=True).strip()` (the tokenizer's
decode is abstracted as `decode_text`). -/
def generate_caption (next_token_of : List ℕ → ℕ) (decode_text : List ℕ → PyStr)
    (cfg : CaptionerCfg) : PyStr :=
  pyStrip (decode_text
    (caption_loop next_token_of cfg.eos_token_id cfg.max_length [cfg.bos_token_id] []).1)

/-- The decoder invocations one `_generate_caption` call performs. -/
def caption_calls (next_token_of : List ℕ → ℕ) (cfg : CaptionerCfg) : List DecoderCall :=
  (caption_loop next_token_of cfg.eos_token_id cfg.max_length [cfg.bos_token_id] []).2

/-- `contracts_models.Caption`. -/
structure Caption where
  image_index : ℕ
  text : PyStr
  source : PyStr
deriving DecidableEq, Repr

/-- The `AiServiceError` raised by `Captioner.generate` on an empty caption
(`details={"imageIndex": index}` omitted from the model). -/
def caption_empty_error : AiServiceError :=
  { code := pyStr "INFERENCE_FAILED"
    message := pyStr "Caption model returned empty caption."
    http_status := 500 }

/-- The inner `for _ in range(max(1, max_captions))` loop of
`Captioner.generate` for one image, with the remaining attempt count as
fuel. -/
def caption_attempts {α : Type} (next_token_of : α → List ℕ → ℕ)
    (decode_text : List ℕ → PyStr) (cfg : CaptionerCfg) (image : α) (index : ℕ) :
    ℕ → Except AiServiceError (List Caption)
  | 0 => .ok []
  | n + 1 =>
    let text := generate_caption (next_token_of image) decode_text cfg
    if text = [] then .error caption_empty_error
    else
      match caption_attempts next_token_of decode_text cfg image index n with
      | .ok caps => .ok ({ image_index := index, text := text, source := pyStr "blip" } :: caps)
      | .error e => .error e

/-- The outer image loop of `Captioner.generate` (`index` is the running
`enumerate` counter). -/
def captioner_generate_aux {α : Type} (next_token_of : α → List ℕ → ℕ)
    (decode_text : List ℕ → PyStr) (cfg : CaptionerCfg) (max_captions : ℕ) :
    List α → ℕ → Except AiServiceError (List Caption)
  | [], _ => .ok []
  | image :: rest, index =>
    match caption_attempts next_token_of decode_text cfg image index (max 1 max_captions) with
    | .error e => .error e
    | .ok caps =>
      match captioner_generate_aux next_token_of decode_text cfg max_captions rest (index + 1) with
      | .error e => .error e
      | .ok caps2 => .ok (caps ++ caps2)

/-- `Captioner.generate` over a list of (opaque) images. -/
def captioner_generate {α : Type} (next_token_of : α → List ℕ → ℕ)
    (decode_text : List ℕ → PyStr) (cfg : CaptionerCfg)
    (images : List α) (max_captions : ℕ) : Except AiServiceError (List Caption) :=
  captioner_generate_aux next_token_of decode_text cfg max_captions images 0

theorem caption_loop_acc (nt : List ℕ → ℕ) (eos : Option ℕ) :
    ∀ (fuel : ℕ) (ids : List ℕ) (calls0 : List DecoderCall),
      caption_loop nt eos fuel ids calls0
        = ((caption_loop nt eos fuel ids []).1,
           calls0 ++ (caption_loop nt eos fuel ids []).2) := by
  intro fuel
  induction fuel with
  | zero => intro ids calls0; simp [caption_loop]
  | succ n ih =>
    intro ids calls0
    rw [caption_loop, caption_loop]
    by_cases h : eos = some (nt ids)
    · simp only [if_pos h]
      simp
    · simp only [if_neg h]
      rw [ih (ids ++ [nt ids]) (calls0 ++ [_]), ih (ids ++ [nt ids]) ([] ++ [_])]
      simp

theorem caption_loop_call_shape (nt : List ℕ → ℕ) (eos : Option ℕ) :
    ∀ (fuel : ℕ) (ids : List ℕ) (t : ℕ),
      t < (caption_loop nt eos fuel ids []).2.length →
      ∃ ext : List ℕ,
        ((caption_loop nt eos fuel ids []).2.getD t ⟨[], []⟩).input_ids = ids ++ ext ∧
        ext.length = t ∧
        ((caption_loop nt eos fuel ids []).2.getD t ⟨[], []⟩).attention_mask
          = List.replicate (ids ++ ext).length 1 := by
  intro fuel
  induction fuel with
  | zero => intro ids t ht; simp [caption_loop] at ht
  | succ n ih =>
    intro ids t ht
    rw [caption_loop] at ht ⊢
    by_cases h : eos = some (nt ids)
    · simp only [if_pos h] at ht ⊢
      have ht0 : t = 0 := by simp at ht; omega
      subst ht0
      exact ⟨[], by simp, by simp, by simp [List.map_const']⟩
    · simp only [if_neg h] at ht ⊢
      rw [caption_loop_acc nt eos n (ids ++ [nt ids])] at ht ⊢
      cases t with
      | zero => exact ⟨[], by simp [List.map_const']⟩
      | succ m =>
        simp only [List.nil_append, List.length_cons, List.length_append] at ht
        have hm : m < (caption_loop nt eos n (ids ++ [nt ids]) []).2.length := by
          simp at ht
          omega
        obtain ⟨ext, h1, h2, h3⟩ := ih (ids ++ [nt ids]) m hm
        refine ⟨nt ids :: ext, ?_, by simp [h2], ?_⟩
        · simpa using h1
        · simpa using h3

/-- C3 (amended): every decoding step `t` of `_generate_caption` invokes the
one text-decoder graph with the full accumulated token sequence — the BOS
seed followed by the `t` previously produced tokens — together with an
all-ones attention mask of the same length `t + 1`; no key/value cache is
produced, threaded or replaced between steps (the decoder interface has
none). -/
theorem caption_decoder_inputs (nt : List ℕ → ℕ) (cfg : CaptionerCfg) (t : ℕ)
    (ht : t < (caption_calls nt cfg).length) :
    ∃ generated : List ℕ,
      ((caption_calls nt cfg).getD t ⟨[], []⟩).input_ids
        = cfg.bos_token_id :: generated ∧
      generated.length = t ∧
      ((caption_calls nt cfg).getD t ⟨[], []⟩).attention_mask
        = List.replicate (t + 1) 1 := by
  obtain ⟨ext, h1, h2, h3⟩ := caption_loop_call_shape nt cfg.eos_token_id
    cfg.max_length [cfg.bos_token_id] t ht
  refine ⟨ext, by simpa using h1, h2, ?_⟩
  rw [caption_calls, h3]
  simp [h2, Nat.add_comm]

/-- C3 counterexample: with a decoder oracle that always emits token `5` and
no end-of-sequence token, the second decoder invocation (step 1) receives
`input_ids = [0, 5]` — the full two-token sequence, not the single most
recently produced token. -/
theorem caption_decoder_single_token_cex :
    ((caption_calls (fun _ => 5)
        { bos_token_id := 0, eos_token_id := none, max_length := 3 }).getD 1
        ⟨[], []⟩).input_ids = [0, 5] ∧
    ([0, 5] : List ℕ).length ≠ 1 := by decide

/-- Witness for C3 (amended) at a concrete oracle: step 1 exists and its
attention mask is the all-ones vector of length 2. -/
theorem caption_decoder_inputs_witness :
    1 < (caption_calls (fun _ => 5)
        { bos_token_id := 0, eos_token_id := none, max_length := 3 }).length ∧
    ((caption_calls (fun _ => 5)
        { bos_token_id := 0, eos_token_id := none, max_length := 3 }).getD 1
        ⟨[], []⟩).attention_mask = List.replicate 2 1 := by
  refine ⟨by decide, ?_⟩
  obtain ⟨g, h1, h2, h3⟩ := caption_decoder_inputs (fun _ => 5)
    { bos_token_id := 0, eos_token_id := none, max_length := 3 } 1 (by decide)
  simpa using h3

theorem caption_loop_length_le (nt : List ℕ → ℕ) (eos : Option ℕ) :
    ∀ (fuel : ℕ) (ids : List ℕ) (calls0 : List DecoderCall),
      (caption_loop nt eos fuel ids calls0).2.length ≤ calls0.length + fuel := by
  intro fuel
  induction fuel with
  | zero => intro ids calls0; simp [caption_loop]
  | succ n ih =>
    intro ids calls0
    rw [caption_loop]
    by_cases h : eos = some (nt ids)
    · simp only [if_pos h, List.length_append, List.length_cons, List.length_nil]
      omega
    · simp only [if_neg h]
      have := ih (ids ++ [nt ids]) (calls0 ++ [⟨ids, ids.map (fun _ => 1)⟩])
      simp only [List.length_append, List.length_cons, List.length_nil] at this
      omega

theorem caption_calls_le (nt : List ℕ → ℕ) (cfg : CaptionerCfg) :
    (caption_calls nt cfg).length ≤ cfg.max_length := by
  simpa using caption_loop_length_le nt cfg.eos_token_id cfg.max_length
    [cfg.bos_token_id] []

theorem caption_attempts_ok {α : Type} (nt : α → List ℕ → ℕ)
    (dec : List ℕ → PyStr) (cfg : CaptionerCfg) (image : α) (index : ℕ) :
    ∀ (n : ℕ) (caps : List Caption),
      caption_attempts nt dec cfg image index n = .ok caps →
      ∀ c ∈ caps, c.text ≠ [] := by
  intro n
  induction n with
  | zero =>
    intro caps h c hc
    rw [caption_attempts] at h
    cases h
    simp at hc
  | succ m ih =>
    intro caps h c hc
    rw [caption_attempts] at h
    by_cases he : generate_caption (nt image) dec cfg = []
    · rw [if_pos he] at h; cases h
    · rw [if_neg he] at h
      cases hrec : caption_attempts nt dec cfg image index m with
      | error e => rw [hrec] at h; cases h
      | ok caps' =>
        rw [hrec] at h
        cases h
        rcases List.mem_cons.mp hc with hc0 | hc1
        · rw [hc0]; exact he
        · exact ih caps' hrec c hc1

theorem caption_attempts_error {α : Type} (nt : α → List ℕ → ℕ)
    (dec : List ℕ → PyStr) (cfg : CaptionerCfg) (image : α) (index : ℕ) :
    ∀ (n : ℕ) (e : AiServiceError),
      caption_attempts nt dec cfg image index n = .error e →
      e = caption_empty_error := by
  intro n
  induction n with
  | zero => intro e h; rw [caption_attempts] at h; cases h
  | succ m ih =>
    intro e h
    rw [caption_attempts] at h
    by_cases he : generate_caption (nt image) dec cfg = []
    · rw [if_pos he] at h; cases h; rfl
    · rw [if_neg he] at h
      cases hrec : caption_attempts nt dec cfg image index m with
      | error eX => rw [hrec] at h; cases h; exact ih _ hrec
      | ok caps' => rw [hrec] at h; cases h

theorem captioner_generate_aux_ok {α : Type} (nt : α → List ℕ → ℕ)
    (dec : List ℕ → PyStr) (cfg : CaptionerCfg) (max_captions : ℕ) :
    ∀ (images : List α) (index : ℕ) (caps : List Caption),
      captioner_generate_aux nt dec cfg max_captions images index = .ok caps →
      ∀ c ∈ caps, c.text ≠ [] := by
  intro images
  induction images with
  | nil =>
    intro index caps h c hc
    rw [captioner_generate_aux] at h
    cases h
    simp at hc
  | cons image rest ih =>
    intro index caps h c hc
    rw [captioner_generate_aux] at h
    cases h1 : caption_attempts nt dec cfg image index (max 1 max_captions) with
    | error e => rw [h1] at h; cases h
    | ok caps1 =>
      rw [h1] at h
      cases h2 : captioner_generate_aux nt dec cfg max_captions rest (index + 1) with
      | error e => rw [h2] at h; cases h
      | ok caps2 =>
        rw [h2] at h
        cases h
        rcases List.mem_append.mp hc with hc1 | hc2
        · exact caption_attempts_ok nt dec cfg image index _ caps1 h1 c hc1
        · exact ih (index + 1) caps2 h2 c hc2

theorem captioner_generate_aux_error {α : Type} (nt : α → List ℕ → ℕ)
    (dec : List ℕ → PyStr) (cfg : CaptionerCfg) (max_captions : ℕ) :
    ∀ (images : List α) (index : ℕ) (e : AiServiceError),
      captioner_generate_aux nt dec cfg max_captions images index = .error e →
      e = caption_empty_error := by
  intro images
  induction images with
  | nil => intro index e h; rw [captioner_generate_aux] at h; cases h
  | cons image rest ih =>
    intro index e h
    rw [captioner_generate_aux] at h
    cases h1 : caption_attempts nt dec cfg image index (max 1 max_captions) with
    | error e1 =>
      rw [h1] at h; cases h
      exact caption_attempts_error nt dec cfg image index _ _ h1
    | ok caps1 =>
      rw [h1] at h
      cases h2 : captioner_generate_aux nt dec cfg max_captions rest (index + 1) with
      | error e2 => rw [h2] at h; cases h; exact ih (index + 1) _ h2
      | ok caps2 => rw [h2] at h; cases h

/-- C4: per caption the decoder loop performs at most
`min(model_max_length, 30)` decoder invocations (even when no end-of-sequence
token is ever produced), and `Captioner.generate` either succeeds with every
caption text non-empty (after special-token-skipping decode and strip) or
fails with an error whose code is `INFERENCE_FAILED`. -/
theorem captioner_termination_nonempty {α : Type}
    (nt : α → List ℕ → ℕ) (dec : List ℕ → PyStr) (bos : ℕ) (eos : Option ℕ)
    (model_max_length : ℕ) (images : List α) (max_captions : ℕ) :
    (∀ image : α,
      (caption_calls (nt image)
          { bos_token_id := bos, eos_token_id := eos
            max_length := captioner_max_length model_max_length }).length
        ≤ captioner_max_length model_max_length) ∧
    captioner_max_length model_max_length ≤ 30 ∧
    (∀ caps,
      captioner_generate nt dec
          { bos_token_id := bos, eos_token_id := eos
            max_length := captioner_max_length model_max_length }
          images max_captions = .ok caps →
      ∀ c ∈ caps, c.text ≠ []) ∧
    (∀ e,
      captioner_generate nt dec
          { bos_token_id := bos, eos_token_id := eos
            max_length := captioner_max_length model_max_length }
          images max_captions = .error e →
      e.code = pyStr "INFERENCE_FAILED") := by
  refine ⟨fun image => caption_calls_le (nt image) _, Nat.min_le_right _ _, ?_, ?_⟩
  · intro caps h
    exact captioner_generate_aux_ok nt dec _ max_captions images 0 caps h
  · intro e h
    have := captioner_generate_aux_error nt dec _ max_captions images 0 e h
    rw [this]
    rfl

/-- Witness for C4: a concrete oracle that emits token `5` (the EOS id)
yields a successful run with the non-empty caption `"a red shoe"`. -/
theorem captioner_termination_nonempty_witness :
    captioner_generate (fun (_ : Unit) (_ : List ℕ) => 5)
        (fun _ => pyStr "a red shoe")
        { bos_token_id := 0, eos_token_id := some 5
          max_length := captioner_max_length 100 } [()] 1
      = .ok [{ image_index := 0, text := pyStr "a red shoe", source := pyStr "blip" }] ∧
    pyStr "a red shoe" ≠ [] := by
  refine ⟨by rfl, ?_⟩
  have h := (captioner_termination_nonempty (fun (_ : Unit) (_ : List ℕ) => 5)
    (fun _ => pyStr "a red shoe") 0 (some 5) 100 [()] 1).2.2.1
    [{ image_index := 0, text := pyStr "a red shoe", source := pyStr "blip" }]
    (by rfl)
  exact h { image_index := 0, text := pyStr "a red shoe", source := pyStr "blip" }
    (by decide)

/-! ## `app/ov_runtime.py` -/

/-- `ov_runtime.DISALLOWED_DEVICE_TOKENS`. -/
def DISALLOWED_DEVICE_TOKENS : List PyStr := [pyStr "AUTO", pyStr "MULTI"]

/-- Python's substring test `needle in hay`. -/
def containsSub : PyStr → PyStr → Bool
  | [], needle => needle.isEmpty
  | c :: t, needle => needle.isPrefixOf (c :: t) || containsSub t needle

/-- The `INVALID_INPUT` error of `normalize_device` for an empty device
string. -/
def device_required_error : AiServiceError :=
  { code := pyStr "INVALID_INPUT"
    message := pyStr "Device string is required."
    http_status := 400 }

/-- Python `normalized.split(":", 1)[1]` (everything after the first colon;
in `normalize_device` it is only applied when the lowered string starts with
`"openvino:"`, so the first colon is the prefix's). -/
def afterFirstColon : PyStr → PyStr
  | [] => []
  | c :: rest => if c = ':' then rest else afterFirstColon rest

/-- `ov_runtime.normalize_device`. -/
def normalize_device (device : PyStr) : Except AiServiceError PyStr :=
  if device = [] then .error device_required_error
  else
    let stripped := pyStrip device
    let normalized :=
      if (pyStr "openvino:").isPrefixOf (pyLower stripped) then afterFirstColon stripped
      else stripped
    if normalized = [] then .error device_required_error
    else .ok (pyUpper normalized)

/-- The `INVALID_INPUT` error of `resolve_device` for composite device
strings (`details={"device": device}` omitted). -/
def auto_multi_error : AiServiceError :=
  { code := pyStr "INVALID_INPUT"
    message := pyStr "AUTO/MULTI devices are not supported."
    http_status := 400 }

/-- The `DEVICE_NOT_AVAILABLE` error of `resolve_device` (structured details
omitted). -/
def device_not_available_error : AiServiceError :=
  { code := pyStr "DEVICE_NOT_AVAILABLE"
    message := pyStr "Requested OpenVINO device is not available."
    http_status := 503 }

/-- `ov_runtime.resolve_device`; the runtime enumeration
`core.available_devices` is passed in as `available`; logging omitted. -/
def resolve_device (available : List PyStr) (device : PyStr) :
    Except AiServiceError PyStr :=
  match normalize_device device with
  | .error e => .error e
  | .ok normalized =>
    if DISALLOWED_DEVICE_TOKENS.any (fun token => containsSub normalized token)
        || normalized.contains ',' then
      .error auto_multi_error
    else if ¬ (available.contains normalized) then .error device_not_available_error
    else .ok normalized

/-- `ov_runtime.require_device` (an alias of `resolve_device`). -/
def require_device (available : List PyStr) (device : PyStr) :
    Except AiServiceError PyStr :=
  resolve_device available device

theorem resolve_device_eq (available : List PyStr) (device n : PyStr)
    (hn : normalize_device device = .ok n) :
    resolve_device available device =
      if DISALLOWED_DEVICE_TOKENS.any (fun token => containsSub n token)
          || n.contains ',' then .error auto_multi_error
      else if ¬ (available.contains n) then .error device_not_available_error
      else .ok n := by
  rw [resolve_device, hn]

theorem resolve_ok_normalize (available : List PyStr) (device d : PyStr)
    (h : resolve_device available device = .ok d) :
    normalize_device device = .ok d ∧ d ∈ available := by
  cases hn : normalize_device device with
  | error e =>
    rw [resolve_device, hn] at h
    cases h
  | ok n =>
    rw [resolve_device_eq available device n hn] at h
    by_cases h1 : (DISALLOWED_DEVICE_TOKENS.any (fun token => containsSub n token)
        || n.contains ',') = true
    · rw [if_pos h1] at h; cases h
    · rw [if_neg h1] at h
      by_cases h2 : available.contains n
      · rw [if_neg (by simpa using h2)] at h
        cases h
        exact ⟨rfl, List.elem_iff.mp h2⟩
      · rw [if_pos (by simpa using h2)] at h; cases h

/-- C9: `resolve_device` rejects every composite/auto-selection device
string — one whose normalized form contains an `AUTO` or `MULTI` token or a
comma — with the `INVALID_INPUT` error; a normalized single device name
absent from the runtime's enumerated available devices fails with
`DEVICE_NOT_AVAILABLE`; and every success returns exactly the normalized
request, a member of the enumeration — no other device is ever
substituted. -/
theorem resolve_device_spec (available : List PyStr) (device n : PyStr)
    (hn : normalize_device device = .ok n) :
    ((containsSub n (pyStr "AUTO") || containsSub n (pyStr "MULTI")
        || n.contains ',') = true →
      resolve_device available device = .error auto_multi_error) ∧
    ((containsSub n (pyStr "AUTO") || containsSub n (pyStr "MULTI")
        || n.contains ',') = false →
      n ∉ available →
      resolve_device available device = .error device_not_available_error) ∧
    (∀ d, resolve_device available device = .ok d → d = n ∧ d ∈ available) ∧
    auto_multi_error.code = pyStr "INVALID_INPUT" ∧
    device_not_available_error.code = pyStr "DEVICE_NOT_AVAILABLE" := by
  have hany : (DISALLOWED_DEVICE_TOKENS.any (fun token => containsSub n token)
      || n.contains ',')
      = (containsSub n (pyStr "AUTO") || containsSub n (pyStr "MULTI")
        || n.contains ',') := by
    simp [DISALLOWED_DEVICE_TOKENS, Bool.or_assoc]
  rw [resolve_device_eq available device n hn]
  refine ⟨?_, ?_, ?_, rfl, rfl⟩
  · intro hcomp
    rw [if_pos (by rw [hany]; exact hcomp)]
  · intro hcomp hmem
    rw [if_neg (by rw [hany, hcomp]; simp),
      if_pos (by simpa using fun hc => hmem (List.elem_iff.mp hc))]
  · intro d h
    by_cases h1 : (DISALLOWED_DEVICE_TOKENS.any (fun token => containsSub n token)
        || n.contains ',') = true
    · rw [if_pos h1] at h; cases h
    · rw [if_neg h1] at h
      by_cases h2 : available.contains n
      · rw [if_neg (by simpa using h2)] at h
        cases h
        exact ⟨rfl, List.elem_iff.mp h2⟩
      · rw [if_pos (by simpa using h2)] at h; cases h

/-- Witness for C9: requesting `"npu"` when only `"GPU"` is enumerated
normalizes to `"NPU"` and fails with `DEVICE_NOT_AVAILABLE`. -/
theorem resolve_device_spec_witness :
    normalize_device (pyStr "npu") = .ok (pyStr "NPU") ∧
    resolve_device [pyStr "GPU"] (pyStr "npu") = .error device_not_available_error :=
  ⟨by rfl,
    (resolve_device_spec [pyStr "GPU"] (pyStr "npu") (pyStr "NPU") (by rfl)).2.1
      (by decide) (by decide)⟩

/-! ## `app/services/pipeline/llm_openvino_genai.py`, device policy -/

/-- The `INVALID_INPUT` error of `LlmCopywriter.__init__` for a device
outside the generator allow-list (structured details omitted). -/
def llm_device_not_allowed_error : AiServiceError :=
  { code := pyStr "INVALID_INPUT"
    message := pyStr "LLM device is not allowed."
    http_status := 400 }

/-- The device-policy fragment of `LlmCopywriter.__init__`: normalize the
requested string, build `allowed_devices = {"GPU", "NPU"}` adding `"CPU"`
exactly when the request itself normalizes to `"CPU"`, resolve through
`require_device`, and reject a resolved device outside the allow-list.
Model-asset loading, logging and pipeline construction are outside this
fragment. -/
def llm_init_device_check (available : List PyStr) (device : PyStr) :
    Except AiServiceError PyStr :=
  match normalize_device device with
  | .error e => .error e
  | .ok normalized_requested =>
    let allowed_devices :=
      if normalized_requested = pyStr "CPU" then [pyStr "GPU", pyStr "NPU", pyStr "CPU"]
      else [pyStr "GPU", pyStr "NPU"]
    match require_device available device with
    | .error e => .error e
    | .ok ov_device =>
      if ¬ (allowed_devices.contains ov_device) then .error llm_device_not_allowed_error
      else .ok ov_device

theorem llm_init_device_check_eq (available : List PyStr) (device n d : PyStr)
    (hn : normalize_device device = .ok n)
    (hres : require_device available device = .ok d) :
    llm_init_device_check available device =
      if ¬ ((if n = pyStr "CPU" then [pyStr "GPU", pyStr "NPU", pyStr "CPU"]
             else [pyStr "GPU", pyStr "NPU"]).contains d) then
        .error llm_device_not_allowed_error
      else .ok d := by
  rw [llm_init_device_check, hn, hres]

/-- C10: the generator allow-list admits `GPU` and `NPU` unconditionally and
admits `CPU` exactly when the request itself normalizes to `CPU` — since the
resolved device always equals the normalized request, an explicitly
requested available CPU device is never rejected, while any resolved device
outside `{GPU, NPU, CPU-as-requested}` raises `INVALID_INPUT`. -/
theorem llm_device_allowlist_spec (available : List PyStr) (device d : PyStr)
    (hres : resolve_device available device = .ok d) :
    (d = pyStr "CPU" → llm_init_device_check available device = .ok (pyStr "CPU")) ∧
    (d = pyStr "GPU" ∨ d = pyStr "NPU" →
      llm_init_device_check available device = .ok d) ∧
    (d ≠ pyStr "CPU" → d ≠ pyStr "GPU" → d ≠ pyStr "NPU" →
      llm_init_device_check available device = .error llm_device_not_allowed_error ∧
      llm_device_not_allowed_error.code = pyStr "INVALID_INPUT") := by
  obtain ⟨hn, _⟩ := resolve_ok_normalize available device d hres
  have heq := llm_init_device_check_eq available device d d hn
    (by rw [require_device]; exact hres)
  rw [heq]
  refine ⟨?_, ?_, ?_⟩
  · intro hcpu
    subst hcpu
    rw [if_neg (by simp)]
  · intro hgpu
    rcases hgpu with h | h <;> subst h
    · rw [if_neg (by by_cases hc : pyStr "GPU" = pyStr "CPU" <;> simp [hc])]
    · rw [if_neg (by by_cases hc : pyStr "NPU" = pyStr "CPU" <;> simp [hc])]
  · intro hcpu hgpu hnpu
    refine ⟨?_, rfl⟩
    have hcond : ¬ ((if d = pyStr "CPU" then [pyStr "GPU", pyStr "NPU", pyStr "CPU"]
        else [pyStr "GPU", pyStr "NPU"]).contains d = true) := by
      rw [if_neg hcpu]
      simp only [List.contains_cons, List.contains_nil, Bool.or_eq_true]
      intro hor
      rcases hor with h | h | h
      · exact hgpu (beq_iff_eq.mp h)
      · exact hnpu (beq_iff_eq.mp h)
      · cases h
    rw [if_pos hcond]

/-- Witness for C10: requesting `"cpu"` with `"CPU"` enumerated resolves to
`CPU` and passes the generator allow-list. -/
theorem llm_device_allowlist_spec_witness :
    resolve_device [pyStr "CPU"] (pyStr "cpu") = .ok (pyStr "CPU") ∧
    llm_init_device_check [pyStr "CPU"] (pyStr "cpu") = .ok (pyStr "CPU") :=
  ⟨by rfl,
    (llm_device_allowlist_spec [pyStr "CPU"] (pyStr "cpu") (pyStr "CPU") (by rfl)).1 rfl⟩

/-! ## `llm_openvino_genai._validate_copy_output` -/

/-- Python `description.split(".")` (every occurrence splits; empty pieces
kept). -/
def pySplitDot : PyStr → List PyStr
  | [] => [[]]
  | c :: rest =>
    if c = '.' then [] :: pySplitDot rest
    else
      match pySplitDot rest with
      | [] => [[c]]
      | h :: t => (c :: h) :: t

/-- `len([s for s in description.split(".") if s.strip()])` of
`_validate_copy_output`. -/
def sentence_count (d : PyStr) : ℕ :=
  ((pySplitDot d).filter (fun s => !(pyStrip s).isEmpty)).length

/-- `llm_openvino_genai._validate_copy_output`.  A Python value that is not
a `str` (a missing key, `None`, a number, ...) is modelled as `none`; the
raised `ValueError` message is the error payload. -/
def validate_copy_output (title description : Option PyStr) : Except PyStr Unit :=
  match title, description with
  | some t, some d =>
    if ¬ (55 ≤ t.length ∧ t.length ≤ 90) then
      .error (pyStr "Title length out of range.")
    else if sentence_count d < 2 ∨ sentence_count d > 4 then
      .error (pyStr "Description must be 2-4 sentences.")
    else if pyStrip d = [] then
      .error (pyStr "Description must not be empty.")
    else .ok ()
  | _, _ => .error (pyStr "Title and description must be strings.")

theorem pySplitDot_ne_nil (d : PyStr) : pySplitDot d ≠ [] := by
  induction d with
  | nil => simp [pySplitDot]
  | cons c rest ih =>
    rw [pySplitDot]
    by_cases hc : c = '.'
    · simp [hc]
    · rw [if_neg hc]
      cases h : pySplitDot rest with
      | nil => simp
      | cons a b => simp

theorem mem_pySplitDot_subset (d s : PyStr) (hs : s ∈ pySplitDot d) :
    ∀ c ∈ s, c ∈ d := by
  induction d generalizing s with
  | nil =>
    simp [pySplitDot] at hs
    simp [hs]
  | cons c0 rest ih =>
    rw [pySplitDot] at hs
    by_cases hc : c0 = '.'
    · rw [if_pos hc] at hs
      rcases List.mem_cons.mp hs with h | h
      · simp [h]
      · intro c hcs
        exact List.mem_cons_of_mem c0 (ih s h c hcs)
    · rw [if_neg hc] at hs
      cases hsplit : pySplitDot rest with
      | nil => exact absurd hsplit (pySplitDot_ne_nil rest)
      | cons a b =>
        rw [hsplit] at hs
        rcases List.mem_cons.mp hs with h | h
        · subst h
          intro c hcs
          rcases List.mem_cons.mp hcs with h2 | h2
          · simp [h2]
          · exact List.mem_cons_of_mem c0
              (ih a (by rw [hsplit]; exact List.mem_cons_self a b) c h2)
        · intro c hcs
          exact List.mem_cons_of_mem c0
            (ih s (by rw [hsplit]; exact List.mem_cons_of_mem a h) c hcs)

theorem pyStrip_eq_nil_iff (s : PyStr) :
    pyStrip s = [] ↔ ∀ c ∈ s, pyWsB c = true := by
  rw [pyStrip]
  rw [List.reverse_eq_nil_iff, List.dropWhile_eq_nil_iff]
  constructor
  · intro h c hc
    by_cases hdrop : c ∈ s.dropWhile pyWsB
    · exact h c (List.mem_reverse.mpr hdrop)
    · have hsplit := List.takeWhile_append_dropWhile (p := pyWsB) (l := s)
      rcases List.mem_append.mp (by rw [hsplit]; exact hc) with h2 | h2
      · exact List.mem_takeWhile_imp h2
      · exact absurd h2 hdrop
  · intro h c hc
    exact h c ((List.dropWhile_sublist pyWsB).subset (List.mem_reverse.mp hc))

theorem sentence_pos_strip_ne (d : PyStr) (h : 1 ≤ sentence_count d) :
    pyStrip d ≠ [] := by
  rw [sentence_count] at h
  have hne : (pySplitDot d).filter (fun s => !(pyStrip s).isEmpty) ≠ [] := by
    intro hnil
    rw [hnil] at h
    simp at h
  obtain ⟨s, hs⟩ := List.exists_mem_of_ne_nil _ hne
  have hmem := List.mem_filter.mp hs
  have hstrip : pyStrip s ≠ [] := by
    intro hnil
    have := hmem.2
    rw [hnil] at this
    simp at this
  intro hdnil
  apply hstrip
  rw [pyStrip_eq_nil_iff]
  intro c hc
  exact (pyStrip_eq_nil_iff d).mp hdnil c (mem_pySplitDot_subset d s hmem.1 c hc)

/-- C6: schema validation accepts exactly when both values are strings, the
title length lies in the inclusive range 55–90 and the description has 2–4
non-empty `"."`-delimited segments (the separate blank-description check is
implied by a positive sentence count); in particular title lengths 54 and 91
are rejected, 55 and 90 accepted, and descriptions of 1 or 5 sentences are
rejected while 2–4 are accepted. -/
theorem validate_copy_output_spec :
    (∀ title description : Option PyStr,
      validate_copy_output title description = .ok () ↔
      ∃ t d, title = some t ∧ description = some d ∧
        55 ≤ t.length ∧ t.length ≤ 90 ∧
        2 ≤ sentence_count d ∧ sentence_count d ≤ 4) ∧
    validate_copy_output (some (List.replicate 54 'a')) (some (pyStr "A. B."))
      = .error (pyStr "Title length out of range.") ∧
    validate_copy_output (some (List.replicate 55 'a')) (some (pyStr "A. B."))
      = .ok () ∧
    validate_copy_output (some (List.replicate 90 'a')) (some (pyStr "A. B."))
      = .ok () ∧
    validate_copy_output (some (List.replicate 91 'a')) (some (pyStr "A. B."))
      = .error (pyStr "Title length out of range.") ∧
    validate_copy_output (some (List.replicate 60 'a')) (some (pyStr "One sentence."))
      = .error (pyStr "Description must be 2-4 sentences.") ∧
    validate_copy_output (some (List.replicate 60 'a'))
        (some (pyStr "A. B. C. D. E."))
      = .error (pyStr "Description must be 2-4 sentences.") ∧
    validate_copy_output (some (List.replicate 60 'a')) (some (pyStr "A. B. C. D."))
      = .ok () := by
  refine ⟨?_, by rfl, by rfl, by rfl, by rfl, by rfl, by rfl, by rfl⟩
  intro title description
  constructor
  · intro h
    match title, description with
    | some t, some d =>
      rw [validate_copy_output] at h
      by_cases h1 : 55 ≤ t.length ∧ t.length ≤ 90
      · rw [if_neg (by simpa using h1)] at h
        by_cases h2 : sentence_count d < 2 ∨ sentence_count d > 4
        · rw [if_pos h2] at h; cases h
        · refine ⟨t, d, rfl, rfl, h1.1, h1.2, ?_, ?_⟩ <;> omega
      · rw [if_pos (by simpa using h1)] at h; cases h
    | some t, none => simp [validate_copy_output] at h
    | none, _ => simp [validate_copy_output] at h
  · rintro ⟨t, d, rfl, rfl, hl1, hl2, hs1, hs2⟩
    rw [validate_copy_output]
    rw [if_neg (by simp [hl1, hl2])]
    rw [if_neg (by omega)]
    rw [if_neg (sentence_pos_strip_ne d (by omega))]

/-! ## `llm_openvino_genai._extract_first_json_object` -/

/-- The first scanning loop of `_extract_first_json_object`: find the first
`{` outside a string literal and return the suffix starting there (the
Python code records `start_idx`; returning the suffix is the index-free
equivalent).  State threads `in_string` and `escape` exactly as the loop
body updates them. -/
def findOpen : Bool → Bool → PyStr → Option PyStr
  | _, _, [] => none
  | in_string, escape, c :: rest =>
    if c = '\\' ∧ in_string then findOpen in_string (!escape) rest
    else
      let in_string2 := if c = '"' ∧ ¬ escape then !in_string else in_string
      if in_string2 then findOpen in_string2 false rest
      else if c = '{' then some (c :: rest)
      else findOpen in_string2 false rest

/-- The second scanning loop of `_extract_first_json_object`: depth counting
from the character after the opening brace, returning the scanned characters
up to and including the `}` that brings the depth to `0` (Python decrements
then compares to `0`; here the `depth = 1` test before the decrement is the
same). -/
def scanClose : ℕ → Bool → Bool → PyStr → Option PyStr
  | _, _, _, [] => none
  | depth, in_string, escape, c :: rest =>
    if c = '\\' ∧ in_string then (scanClose depth in_string (!escape) rest).map (c :: ·)
    else
      let in_string2 := if c = '"' ∧ ¬ escape then !in_string else in_string
      if in_string2 then (scanClose depth in_string2 false rest).map (c :: ·)
      else if c = '{' then (scanClose (depth + 1) in_string2 false rest).map (c :: ·)
      else if c = '}' then
        if depth = 1 then some [c]
        else (scanClose (depth - 1) in_string2 false rest).map (c :: ·)
      else (scanClose depth in_string2 false rest).map (c :: ·)

/-- `llm_openvino_genai._extract_first_json_object`: the candidate substring
from the first top-level `{` to its matching `}` at depth zero, or `None`. -/
def extract_first_json_object (text : PyStr) : Option PyStr :=
  match findOpen false false text with
  | none => none
  | some [] => none
  | some (c :: rest) => (scanClose 1 false false rest).map (c :: ·)

/-- Canonical JSON encoding of one character inside a string literal (the
two characters JSON requires escaping are escaped). -/
def encodeJsonChar (c : Char) : PyStr :=
  if c = '"' ∨ c = '\\' then ['\\', c] else [c]

/-- Canonical JSON encoding of a string value. -/
def encodeJsonChars (s : PyStr) : PyStr :=
  s.foldr (fun c acc => encodeJsonChar c ++ acc) []

/-- A canonical JSON string literal. -/
def strLit (s : PyStr) : PyStr := '"' :: (encodeJsonChars s ++ ['"'])

/-- The canonical serialization of a `{"title": ..., "description": ...}`
object with string values `t` and `d`. -/
def canonicalCopyObject (t d : PyStr) : PyStr :=
  '{' :: (strLit (pyStr "title") ++ ':' :: (strLit t ++ ',' ::
    (strLit (pyStr "description") ++ ':' :: (strLit d ++ ['}']))))

theorem findOpen_append_of_clean (p : PyStr) (hbrace : '{' ∉ p)
    (hquote : '"' ∉ p) (r : PyStr) :
    findOpen false false (p ++ r) = findOpen false false r := by
  induction p with
  | nil => rfl
  | cons c t ih =>
    have hc1 : ¬ (c = '{') := fun h => hbrace (by rw [h]; exact List.mem_cons_self ..)
    have hc2 : ¬ (c = '"') := fun h => hquote (by rw [h]; exact List.mem_cons_self ..)
    have ih2 := ih (fun h => hbrace (List.mem_cons_of_mem c h))
      (fun h => hquote (List.mem_cons_of_mem c h))
    rw [List.cons_append]
    simp [findOpen, hc1, hc2, ih2]

theorem scanClose_enc (depth : ℕ) (s r : PyStr) :
    scanClose depth true false (encodeJsonChars s ++ r)
      = (scanClose depth true false r).map (fun x => encodeJsonChars s ++ x) := by
  induction s with
  | nil =>
    simp only [encodeJsonChars, List.foldr_nil, List.nil_append]
    cases scanClose depth true false r <;> simp
  | cons c t ih =>
    have hstep : encodeJsonChars (c :: t) ++ r
        = encodeJsonChar c ++ (encodeJsonChars t ++ r) := by
      simp [encodeJsonChars, List.append_assoc]
    rw [hstep]
    by_cases hc : c = '"' ∨ c = '\\'
    · rw [encodeJsonChar, if_pos hc]
      simp only [List.cons_append, List.nil_append]
      rw [scanClose, if_pos ⟨rfl, rfl⟩]
      rcases hc with hq | hb
      · subst hq
        have h1 : ¬ (('"' : Char) = '\\') := by decide
        rw [scanClose, if_neg (by simp [h1])]
        rw [if_pos (by simp)]
        simp only [Bool.not_false, eq_self_iff_true, not_true, and_false,
          ite_false, true_and, and_true]
        rw [ih]
        cases hr : scanClose depth true false r <;>
          simp [encodeJsonChars, encodeJsonChar]
      · subst hb
        rw [scanClose, if_pos ⟨rfl, rfl⟩]
        simp only [Bool.not_not]
        rw [ih]
        cases hr : scanClose depth true false r <;>
          simp [encodeJsonChars, encodeJsonChar]
    · have hq : ¬ (c = '"') := fun h => hc (Or.inl h)
      have hb : ¬ (c = '\\') := fun h => hc (Or.inr h)
      rw [encodeJsonChar, if_neg hc]
      simp only [List.cons_append, List.nil_append]
      rw [scanClose, if_neg (by simp [hb])]
      rw [if_pos (by simp [hq])]
      simp only [Bool.false_eq_true, not_false_eq_true, and_true, hq,
        ite_false, if_false]
      rw [ih]
      cases hr : scanClose depth true false r <;>
        simp [encodeJsonChars, encodeJsonChar, hc]

theorem scanClose_step_plain (depth : ℕ) (c : Char) (hq : c ≠ '"')
    (hb : c ≠ '\\') (ho : c ≠ '{') (hcl : c ≠ '}') (r : PyStr) :
    scanClose depth false false (c :: r)
      = (scanClose depth false false r).map (fun x => c :: x) := by
  rw [scanClose, if_neg (by simp [hb])]
  simp only [Bool.false_eq_true, not_false_eq_true, and_true, hq, ite_false,
    if_false, ho, hcl]

theorem scanClose_step_open_quote (depth : ℕ) (r : PyStr) :
    scanClose depth false false ('"' :: r)
      = (scanClose depth true false r).map (fun x => '"' :: x) := by
  rw [scanClose, if_neg (by simp)]
  rw [if_pos (by simp)]
  simp only [Bool.false_eq_true, not_false_eq_true, and_true, eq_self_iff_true,
    ite_true, Bool.not_false]

theorem scanClose_step_close_quote (depth : ℕ) (r : PyStr) :
    scanClose depth true false ('"' :: r)
      = (scanClose depth false false r).map (fun x => '"' :: x) := by
  rw [scanClose, if_neg (by simp)]
  simp only [Bool.false_eq_true, not_false_eq_true, and_true, eq_self_iff_true,
    ite_true, Bool.not_true, ite_false]
  rw [if_neg (by decide), if_neg (by decide)]

theorem scanClose_close_brace (r : PyStr) :
    scanClose 1 false false ('}' :: r) = some ['}'] := by
  rw [scanClose, if_neg (by simp)]
  simp only [Bool.false_eq_true, not_false_eq_true, and_true]
  rw [if_neg (by simp), if_neg (by decide), if_pos (by decide)]
  simp

theorem scanClose_strLit (depth : ℕ) (s r : PyStr) :
    scanClose depth false false (strLit s ++ r)
      = (scanClose depth false false r).map (fun x => strLit s ++ x) := by
  have hshape : strLit s ++ r = '"' :: (encodeJsonChars s ++ ('"' :: r)) := by
    simp [strLit, List.append_assoc]
  rw [hshape, scanClose_step_open_quote, scanClose_enc,
    scanClose_step_close_quote]
  cases hr : scanClose depth false false r <;> simp [strLit]

/-! ## model of `json.loads` as used by `llm_openvino_genai._parse_json_strict` -/

/-- One escape of a JSON string literal (`\uXXXX` is not needed by the
objects this service produces and is a failure in this model). -/
def jsonUnescape (c : Char) : Option Char :=
  if c = '"' then some '"'
  else if c = '\\' then some '\\'
  else if c = '/' then some '/'
  else if c = 'n' then some '\n'
  else if c = 't' then some '\t'
  else if c = 'r' then some '\r'
  else if c = 'b' then some (Char.ofNat 8)
  else if c = 'f' then some (Char.ofNat 12)
  else none

/-- Modelled from the spec: Python's strict `json.loads` (stdlib, not in
`src/`) on string literals — parse a literal body after its opening quote,
returning the decoded value and the rest after the closing quote; raw
control characters are invalid, as in strict `json.loads`. -/
def parseStringLit : PyStr → Option (PyStr × PyStr)
  | [] => none
  | '"' :: rest => some ([], rest)
  | '\\' :: [] => none
  | '\\' :: e :: rest2 =>
    (jsonUnescape e).bind
      (fun dcd => (parseStringLit rest2).map (fun vr => (dcd :: vr.1, vr.2)))
  | c :: rest =>
    if c.toNat < 32 then none
    else (parseStringLit rest).map (fun vr => (c :: vr.1, vr.2))

/-- JSON whitespace skipping of `json.loads`. -/
def jsonSkipWs (s : PyStr) : PyStr :=
  s.dropWhile (fun c => c = ' ' ∨ c = '\n' ∨ c = '\t' ∨ c = '\r')

/-- Modelled from the spec: the member list of a flat JSON object with
string keys and values — the shape the copywriter's outputs take. -/
def parseMembers : ℕ → PyStr → Option (List (PyStr × PyStr) × PyStr)
  | 0, _ => none
  | fuel + 1, s =>
    match jsonSkipWs s with
    | '"' :: rest =>
      match parseStringLit rest with
      | none => none
      | some (k, r1) =>
        match jsonSkipWs r1 with
        | ':' :: r2 =>
          match jsonSkipWs r2 with
          | '"' :: r3 =>
            match parseStringLit r3 with
            | none => none
            | some (v, r4) =>
              match jsonSkipWs r4 with
              | ',' :: r5 =>
                match parseMembers fuel r5 with
                | none => none
                | some (ps, r6) => some ((k, v) :: ps, r6)
              | '}' :: r5 => some ([(k, v)], r5)
              | _ => none
          | _ => none
        | _ => none
    | _ => none

/-- Modelled from the spec: `llm_openvino_genai._parse_json_strict` =
`json.loads` restricted to one flat string-keyed, string-valued object
(the fragment the canonical copy objects inhabit), requiring the whole
input to be consumed (strict `json.loads` rejects trailing data); any other
input is a decode failure, as is a non-object result in the source. -/
def parse_json_strict (s : PyStr) : Option (List (PyStr × PyStr)) :=
  match jsonSkipWs s with
  | '{' :: rest =>
    match jsonSkipWs rest with
    | '}' :: r2 => if jsonSkipWs r2 = [] then some [] else none
    | _ =>
      match parseMembers (rest.length + 1) rest with
      | none => none
      | some (ps, r2) => if jsonSkipWs r2 = [] then some ps else none
  | _ => none

/-- `parsed.get(key)` on the decoded object: Python dict construction from
the member list keeps the last value for a duplicated key. -/
def dictGet (pairs : List (PyStr × PyStr)) (k : PyStr) : Option PyStr :=
  (pairs.reverse.find? (fun p => p.1 == k)).map (fun p => p.2)

theorem parseStringLit_enc (s : PyStr) (r : PyStr)
    (hctrl : ∀ c ∈ s, 32 ≤ c.toNat) :
    parseStringLit (encodeJsonChars s ++ ('"' :: r)) = some (s, r) := by
  induction s with
  | nil => simp +decide [encodeJsonChars, parseStringLit]
  | cons c t ih =>
    have iht := ih (fun x hx => hctrl x (List.mem_cons_of_mem c hx))
    have hc32 : 32 ≤ c.toNat := hctrl c (List.mem_cons_self c t)
    have hstep : encodeJsonChars (c :: t) ++ ('"' :: r)
        = encodeJsonChar c ++ (encodeJsonChars t ++ ('"' :: r)) := by
      simp [encodeJsonChars, List.append_assoc]
    rw [hstep]
    by_cases hc : c = '"' ∨ c = '\\'
    · rw [encodeJsonChar, if_pos hc]
      rcases hc with h | h <;> subst h <;>
        simp +decide [parseStringLit, jsonUnescape, iht]
    · have hq : ¬ (c = '"') := fun h => hc (Or.inl h)
      have hb : ¬ (c = '\\') := fun h => hc (Or.inr h)
      rw [encodeJsonChar, if_neg hc]
      simp [parseStringLit, hq, hb, Nat.not_lt.mpr hc32, iht]


theorem parseMembers_cons (fuel : ℕ) (k v r : PyStr)
    (hk : ∀ c ∈ k, 32 ≤ c.toNat) (hv : ∀ c ∈ v, 32 ≤ c.toNat) :
    parseMembers (fuel + 1) (strLit k ++ (':' :: (strLit v ++ (',' :: r))))
      = (parseMembers fuel r).map (fun pr => ((k, v) :: pr.1, pr.2)) := by
  have hk2 := parseStringLit_enc k (':' :: (strLit v ++ (',' :: r))) hk
  have hv2 := parseStringLit_enc v (',' :: r) hv
  rw [parseMembers]
  simp +decide [strLit, List.append_assoc] at hk2 hv2
  simp +decide [jsonSkipWs, strLit, List.append_assoc, hk2, hv2]
  cases hpm : parseMembers fuel r with
  | none => simp
  | some pr => cases pr; simp

theorem parseMembers_last (fuel : ℕ) (k v r : PyStr)
    (hk : ∀ c ∈ k, 32 ≤ c.toNat) (hv : ∀ c ∈ v, 32 ≤ c.toNat) :
    parseMembers (fuel + 1) (strLit k ++ (':' :: (strLit v ++ ('}' :: r))))
      = some ([(k, v)], r) := by
  have hk2 := parseStringLit_enc k (':' :: (strLit v ++ ('}' :: r))) hk
  have hv2 := parseStringLit_enc v ('}' :: r) hv
  rw [parseMembers]
  simp +decide [strLit, List.append_assoc] at hk2 hv2
  simp +decide [jsonSkipWs, strLit, List.append_assoc, hk2, hv2]

theorem parse_json_strict_eq (s rest : PyStr)
    (h1 : jsonSkipWs s = '{' :: rest)
    (h2 : ∃ tail, jsonSkipWs rest = '"' :: tail) :
    parse_json_strict s
      = match parseMembers (rest.length + 1) rest with
        | none => none
        | some (ps, r2) => if jsonSkipWs r2 = [] then some ps else none := by
  obtain ⟨tail, h2⟩ := h2
  rw [parse_json_strict, h1]
  simp only []
  rw [h2]
  rfl

theorem parse_canonical (t d : PyStr) (ht : ∀ c ∈ t, 32 ≤ c.toNat)
    (hd : ∀ c ∈ d, 32 ≤ c.toNat) :
    parse_json_strict (canonicalCopyObject t d)
      = some [(pyStr "title", t), (pyStr "description", d)] := by
  have htitle : ∀ c ∈ pyStr "title", 32 ≤ c.toNat := by decide
  have hdescr : ∀ c ∈ pyStr "description", 32 ≤ c.toNat := by decide
  have hm : ∀ fuel : ℕ,
      parseMembers (fuel + 1 + 1)
        (strLit (pyStr "title") ++ (':' :: (strLit t ++ (',' ::
          (strLit (pyStr "description") ++ (':' :: (strLit d ++ ['}'])))))))
      = some ([(pyStr "title", t), (pyStr "description", d)], []) := by
    intro fuel
    rw [parseMembers_cons (fuel + 1) (pyStr "title") t _ htitle ht]
    rw [parseMembers_last fuel (pyStr "description") d [] hdescr hd]
    rfl
  have hrestlen : ∃ m : ℕ,
      (strLit (pyStr "title") ++ (':' :: (strLit t ++ (',' ::
        (strLit (pyStr "description") ++ (':' :: (strLit d ++ ['}']))))))).length
      = m + 1 := by
    refine ⟨(strLit (pyStr "title") ++ (':' :: (strLit t ++ (',' ::
      (strLit (pyStr "description") ++ (':' :: (strLit d ++ ['}']))))))).length - 1, ?_⟩
    simp [strLit, pyStr]
  obtain ⟨m, hmlen⟩ := hrestlen
  rw [parse_json_strict_eq (canonicalCopyObject t d)
    (strLit (pyStr "title") ++ (':' :: (strLit t ++ (',' ::
      (strLit (pyStr "description") ++ (':' :: (strLit d ++ ['}'])))))))
    (by rw [canonicalCopyObject]; simp +decide [jsonSkipWs])
    ⟨encodeJsonChars (pyStr "title") ++ ('"' :: (':' :: (strLit t ++ (',' ::
      (strLit (pyStr "description") ++ (':' :: (strLit d ++ ['}']))))))),
      by simp +decide [jsonSkipWs, strLit, List.append_assoc]⟩]
  rw [hmlen, hm m]
  simp [jsonSkipWs]

theorem extract_eq_of_findOpen (text rest : PyStr)
    (h : findOpen false false text = some ('{' :: rest)) :
    extract_first_json_object text
      = (scanClose 1 false false rest).map (fun x => '{' :: x) := by
  rw [extract_first_json_object, h]

theorem extract_canonical (t d noisePre noiseSuf : PyStr)
    (hb : '{' ∉ noisePre) (hq : '"' ∉ noisePre) :
    extract_first_json_object (noisePre ++ (canonicalCopyObject t d ++ noiseSuf))
      = some (canonicalCopyObject t d) := by
  have hopen : findOpen false false (noisePre ++ (canonicalCopyObject t d ++ noiseSuf))
      = some ('{' :: (strLit (pyStr "title") ++ (':' :: (strLit t ++ (',' ::
          (strLit (pyStr "description") ++ (':' :: (strLit d ++ ('}' :: noiseSuf))))))))) := by
    rw [findOpen_append_of_clean noisePre hb hq, canonicalCopyObject, List.cons_append,
      findOpen, if_neg (by simp)]
    simp +decide [List.append_assoc]
  rw [extract_eq_of_findOpen _ _ hopen]
  rw [scanClose_strLit]
  rw [scanClose_step_plain 1 ':' (by decide) (by decide) (by decide) (by decide)]
  rw [scanClose_strLit]
  rw [scanClose_step_plain 1 ',' (by decide) (by decide) (by decide) (by decide)]
  rw [scanClose_strLit]
  rw [scanClose_step_plain 1 ':' (by decide) (by decide) (by decide) (by decide)]
  rw [scanClose_strLit]
  rw [scanClose_close_brace]
  simp [canonicalCopyObject, List.append_assoc]

/-- C5 (amended): for every title/description pair (containing no raw
control characters, as JSON string syntax requires), every prefix noise text
free of `{` and `"` characters, and every suffix noise text, extraction from
prefix + object + suffix recovers exactly the embedded canonical object, and
strict decoding of that candidate recovers byte-identical title and
description values. -/
theorem json_extraction_roundtrip (t d noisePre noiseSuf : PyStr)
    (hb : '{' ∉ noisePre) (hq : '"' ∉ noisePre)
    (ht : ∀ c ∈ t, 32 ≤ c.toNat) (hd : ∀ c ∈ d, 32 ≤ c.toNat) :
    extract_first_json_object (noisePre ++ (canonicalCopyObject t d ++ noiseSuf))
      = some (canonicalCopyObject t d) ∧
    parse_json_strict (canonicalCopyObject t d)
      = some [(pyStr "title", t), (pyStr "description", d)] ∧
    dictGet [(pyStr "title", t), (pyStr "description", d)] (pyStr "title") = some t ∧
    dictGet [(pyStr "title", t), (pyStr "description", d)] (pyStr "description")
      = some d :=
  ⟨extract_canonical t d noisePre noiseSuf hb hq,
   parse_canonical t d ht hd,
   by simp +decide [dictGet],
   by simp +decide [dictGet]⟩

/-- C5 counterexample: noise prefixes are not arbitrary — a prefix
containing `{` (the depth count never returns to zero) or `"` (the scanner
starts inside a string and skips the object's opening brace) makes
extraction fail entirely, so the embedded object is not recovered. -/
theorem json_extraction_noise_cex :
    extract_first_json_object
        ('{' :: (canonicalCopyObject (pyStr "a") (pyStr "b") ++ [])) = none ∧
    extract_first_json_object
        ('"' :: (canonicalCopyObject (pyStr "a") (pyStr "b") ++ [])) = none := by
  decide

/-- Witness for C5 (amended) at concrete noise and values. -/
theorem json_extraction_roundtrip_witness :
    ('{' ∉ pyStr "Here is your JSON: ") ∧
    ('"' ∉ pyStr "Here is your JSON: ") ∧
    (∀ c ∈ pyStr "a", 32 ≤ c.toNat) ∧
    (∀ c ∈ pyStr "x. y.", 32 ≤ c.toNat) ∧
    extract_first_json_object (pyStr "Here is your JSON: " ++
        (canonicalCopyObject (pyStr "a") (pyStr "x. y.") ++ pyStr " done"))
      = some (canonicalCopyObject (pyStr "a") (pyStr "x. y.")) :=
  ⟨by decide, by decide, by decide, by decide,
    (json_extraction_roundtrip (pyStr "a") (pyStr "x. y.")
      (pyStr "Here is your JSON: ") (pyStr " done")
      (by decide) (by decide) (by decide) (by decide)).1⟩

/-! ## `llm_openvino_genai.parse_llm_output` and `_generate_with_retry` -/

/-- The `LLM_OUTPUT_INVALID` error for raw output without a JSON object. -/
def llm_no_json_error : AiServiceError :=
  { code := pyStr "LLM_OUTPUT_INVALID"
    message := pyStr "LLM output did not contain JSON."
    http_status := 502 }

/-- The `LLM_OUTPUT_INVALID` error for a decode or schema failure (the two
raise sites share this message; their structured details are omitted). -/
def llm_schema_error : AiServiceError :=
  { code := pyStr "LLM_OUTPUT_INVALID"
    message := pyStr "LLM output did not match the required JSON schema."
    http_status := 502 }

/-- The parse-and-validate chain of `llm_openvino_genai.parse_llm_output`
without the soft-fail switch: candidate extraction, strict decoding, key
lookup, schema validation, failing with the raise sites' errors.  On
validation success both values are `some`, so the `getD []` totalizers never
fire. -/
def parse_llm_core (raw : PyStr) : Except AiServiceError (PyStr × PyStr) :=
  match extract_first_json_object raw with
  | none => .error llm_no_json_error
  | some candidate =>
    match parse_json_strict candidate with
    | none => .error llm_schema_error
    | some parsed =>
      let title := dictGet parsed (pyStr "title")
      let description := dictGet parsed (pyStr "description")
      match validate_copy_output title description with
      | .error _ => .error llm_schema_error
      | .ok _ => .ok (title.getD [], description.getD [])

/-- `llm_openvino_genai.parse_llm_output`.  Every failure site of the source
checks `allow_debug_failure` and returns the explicit empty pair instead of
raising; the check is uniform over the failure sites, so it factors through
`parse_llm_core`.  Debug recording is omitted (it never influences control
flow). -/
def parse_llm_output (raw : PyStr) (allow_debug_failure : Bool) :
    Except AiServiceError (PyStr × PyStr) :=
  match parse_llm_core raw with
  | .ok r => .ok r
  | .error e => if allow_debug_failure then .ok ([], []) else .error e

/-- `prompts.COPYWRITER_SYSTEM`. -/
def COPYWRITER_SYSTEM : PyStr :=
  pyStr "You are an e-commerce copywriter.\nReturn ONLY valid JSON, no markdown, no extra text.\nLanguage: English.\nUse ONLY the product_facts provided by the user. Do not speculate.\nIf brand_candidate is present, do not mention other brands.\n"

/-- `LlmCopywriter._build_full_prompt`. -/
def build_full_prompt (user_prompt : PyStr) : PyStr :=
  pyStr "### System\n" ++ COPYWRITER_SYSTEM ++ pyStr "\n### User\n"
    ++ user_prompt ++ pyStr "\n### Assistant\n"

/-- The corrective instruction `_generate_with_retry` appends on retry. -/
def retry_prompt : PyStr :=
  pyStr "Your previous output was invalid JSON or did not match the schema. Return ONLY valid JSON with keys title and description."

/-- One generate-and-parse attempt of `_generate_with_retry` — its body with
`retry=False`: run the timeout-governed generation on the full prompt
(`gen` abstracts `_generate_with_timeout`; its raised `LLM_TIMEOUT` turns
into the empty result when soft-fail is on and is re-raised otherwise), then
parse the raw output.  Generation-config/stop-string handling and logging do
not affect the returned value and are omitted. -/
def generate_attempt (gen : PyStr → Except AiServiceError PyStr)
    (prompt : PyStr) (allow_debug_failure : Bool) :
    Except AiServiceError (PyStr × PyStr) :=
  match gen (build_full_prompt prompt) with
  | .error e =>
    if e.code = pyStr "LLM_TIMEOUT" ∧ allow_debug_failure then .ok ([], [])
    else .error e
  | .ok raw => parse_llm_output raw allow_debug_failure

/-- `llm_openvino_genai._generate_with_retry`.  The `retry` flag strictly
decreases over the one recursive call, so the recursion is unrolled into
`generate_attempt` for the second attempt. -/
def generate_with_retry (gen : PyStr → Except AiServiceError PyStr)
    (prompt : PyStr) (retry allow_debug_failure : Bool) :
    Except AiServiceError (PyStr × PyStr) :=
  match gen (build_full_prompt prompt) with
  | .error e =>
    if e.code = pyStr "LLM_TIMEOUT" ∧ allow_debug_failure then .ok ([], [])
    else .error e
  | .ok raw =>
    match parse_llm_output raw allow_debug_failure with
    | .ok r => .ok r
    | .error e =>
      if retry then
        generate_attempt gen (prompt ++ pyStr "\n\n" ++ retry_prompt)
          allow_debug_failure
      else .error e

/-- The full prompts `_generate_with_retry` passes to `pipeline.generate`,
in order (instrumentation mirroring `generate_with_retry`). -/
def generate_call_prompts (gen : PyStr → Except AiServiceError PyStr)
    (prompt : PyStr) (retry allow_debug_failure : Bool) : List PyStr :=
  match gen (build_full_prompt prompt) with
  | .error _ => [build_full_prompt prompt]
  | .ok raw =>
    match parse_llm_output raw allow_debug_failure with
    | .ok _ => [build_full_prompt prompt]
    | .error _ =>
      if retry then
        [build_full_prompt prompt,
         build_full_prompt (prompt ++ pyStr "\n\n" ++ retry_prompt)]
      else [build_full_prompt prompt]

theorem parse_llm_output_false (raw : PyStr) :
    parse_llm_output raw false = parse_llm_core raw := by
  cases h : parse_llm_core raw <;> simp [parse_llm_output, h]

theorem parse_llm_output_soft_fail (raw : PyStr) (e : AiServiceError)
    (h : parse_llm_core raw = .error e) :
    parse_llm_output raw true = .ok ([], []) := by
  simp [parse_llm_output, h]

theorem parse_llm_core_error_code (raw : PyStr) (e : AiServiceError)
    (h : parse_llm_core raw = .error e) :
    e.code = pyStr "LLM_OUTPUT_INVALID" := by
  rw [parse_llm_core] at h
  cases hex : extract_first_json_object raw with
  | none =>
    rw [hex] at h
    cases h
    rfl
  | some candidate =>
    rw [hex] at h
    simp only [] at h
    cases hps : parse_json_strict candidate with
    | none =>
      rw [hps] at h
      cases h
      rfl
    | some parsed =>
      rw [hps] at h
      simp only [] at h
      cases hv : validate_copy_output (dictGet parsed (pyStr "title"))
          (dictGet parsed (pyStr "description")) with
      | error msg =>
        rw [hv] at h
        cases h
        rfl
      | ok u =>
        rw [hv] at h
        cases h

theorem generate_with_retry_eq_ok (gen : PyStr → Except AiServiceError PyStr)
    (prompt : PyStr) (retry adf : Bool) (raw : PyStr)
    (hgen : gen (build_full_prompt prompt) = .ok raw) :
    generate_with_retry gen prompt retry adf
      = match parse_llm_output raw adf with
        | .ok r => .ok r
        | .error e =>
          if retry then
            generate_attempt gen (prompt ++ pyStr "\n\n" ++ retry_prompt) adf
          else .error e := by
  rw [generate_with_retry, hgen]

theorem generate_attempt_eq_ok (gen : PyStr → Except AiServiceError PyStr)
    (prompt : PyStr) (adf : Bool) (raw : PyStr)
    (hgen : gen (build_full_prompt prompt) = .ok raw) :
    generate_attempt gen prompt adf = parse_llm_output raw adf := by
  rw [generate_attempt, hgen]

theorem generate_call_prompts_eq_ok (gen : PyStr → Except AiServiceError PyStr)
    (prompt : PyStr) (retry adf : Bool) (raw : PyStr)
    (hgen : gen (build_full_prompt prompt) = .ok raw) :
    generate_call_prompts gen prompt retry adf
      = match parse_llm_output raw adf with
        | .ok _ => [build_full_prompt prompt]
        | .error _ =>
          if retry then
            [build_full_prompt prompt,
             build_full_prompt (prompt ++ pyStr "\n\n" ++ retry_prompt)]
          else [build_full_prompt prompt] := by
  rw [generate_call_prompts, hgen]

/-- C7 (amended): with soft-fail off, a first parse/validation failure
causes exactly one re-invocation, with the original prompt plus the
corrective instruction appended, whose output is parsed again; a second
failure is terminal with code `LLM_OUTPUT_INVALID`, a second success is
returned.  With the caller opted into debug/soft-fail mode parsing never
raises: the first failure already yields the explicit empty result and
generation is invoked exactly once — no retry happens. -/
theorem generate_retry_policy (gen : PyStr → Except AiServiceError PyStr)
    (prompt raw1 : PyStr) (e1 : AiServiceError)
    (hgen1 : gen (build_full_prompt prompt) = .ok raw1)
    (hfail1 : parse_llm_core raw1 = .error e1) :
    (generate_call_prompts gen prompt true false
        = [build_full_prompt prompt,
           build_full_prompt (prompt ++ pyStr "\n\n" ++ retry_prompt)]) ∧
    (∀ raw2 e2,
      gen (build_full_prompt (prompt ++ pyStr "\n\n" ++ retry_prompt)) = .ok raw2 →
      parse_llm_core raw2 = .error e2 →
      generate_with_retry gen prompt true false = .error e2 ∧
      e2.code = pyStr "LLM_OUTPUT_INVALID") ∧
    (∀ raw2 r2,
      gen (build_full_prompt (prompt ++ pyStr "\n\n" ++ retry_prompt)) = .ok raw2 →
      parse_llm_core raw2 = .ok r2 →
      generate_with_retry gen prompt true false = .ok r2) ∧
    generate_with_retry gen prompt true true = .ok ([], []) ∧
    generate_call_prompts gen prompt true true = [build_full_prompt prompt] := by
  have hpf : parse_llm_output raw1 false = .error e1 := by
    rw [parse_llm_output_false, hfail1]
  have hpt : parse_llm_output raw1 true = .ok ([], []) :=
    parse_llm_output_soft_fail raw1 e1 hfail1
  refine ⟨?_, ?_, ?_, ?_, ?_⟩
  · rw [generate_call_prompts_eq_ok gen prompt true false raw1 hgen1, hpf]
    rfl
  · intro raw2 e2 hgen2 hfail2
    have hpf2 : parse_llm_output raw2 false = .error e2 := by
      rw [parse_llm_output_false, hfail2]
    refine ⟨?_, parse_llm_core_error_code raw2 e2 hfail2⟩
    rw [generate_with_retry_eq_ok gen prompt true false raw1 hgen1, hpf,
      generate_attempt_eq_ok gen _ false raw2 hgen2, hpf2]
    rfl
  · intro raw2 r2 hgen2 hok2
    have hpf2 : parse_llm_output raw2 false = .ok r2 := by
      rw [parse_llm_output_false, hok2]
    rw [generate_with_retry_eq_ok gen prompt true false raw1 hgen1, hpf,
      generate_attempt_eq_ok gen _ false raw2 hgen2, hpf2]
    rfl
  · rw [generate_with_retry_eq_ok gen prompt true true raw1 hgen1, hpt]
  · rw [generate_call_prompts_eq_ok gen prompt true true raw1 hgen1, hpt]

set_option maxRecDepth 16384 in
/-- C7 counterexample: in soft-fail mode a first parse failure does not
trigger the retry — generation runs exactly once (not twice) and the empty
result is returned immediately. -/
theorem generate_retry_soft_fail_cex :
    parse_llm_core (pyStr "not-json") = .error llm_no_json_error ∧
    generate_call_prompts (fun _ => .ok (pyStr "not-json")) (pyStr "p") true true
      = [build_full_prompt (pyStr "p")] ∧
    ([build_full_prompt (pyStr "p")] : List PyStr).length ≠ 2 ∧
    generate_with_retry (fun _ => .ok (pyStr "not-json")) (pyStr "p") true true
      = .ok ([], []) := by
  refine ⟨by rfl, ?_, by simp, ?_⟩
  · rw [generate_call_prompts_eq_ok _ _ true true (pyStr "not-json") rfl]
    rw [parse_llm_output_soft_fail (pyStr "not-json") llm_no_json_error (by rfl)]
  · rw [generate_with_retry_eq_ok _ _ true true (pyStr "not-json") rfl]
    rw [parse_llm_output_soft_fail (pyStr "not-json") llm_no_json_error (by rfl)]

/-- The generation oracle of the C7 witness: garbage on the first prompt, a
valid canonical object on the retried prompt. -/
def exGen : PyStr → Except AiServiceError PyStr := fun full =>
  if full = build_full_prompt (pyStr "p") then .ok (pyStr "not-json")
  else .ok (canonicalCopyObject (List.replicate 60 'a') (pyStr "A. B."))

set_option maxRecDepth 16384 in
/-- Witness for C7 (amended): with `exGen`, the first attempt fails, the
retry parses the valid object, and the hard-fail run returns it. -/
theorem generate_retry_policy_witness :
    exGen (build_full_prompt (pyStr "p")) = .ok (pyStr "not-json") ∧
    parse_llm_core (pyStr "not-json") = .error llm_no_json_error ∧
    generate_call_prompts exGen (pyStr "p") true false
      = [build_full_prompt (pyStr "p"),
         build_full_prompt (pyStr "p" ++ pyStr "\n\n" ++ retry_prompt)] ∧
    generate_with_retry exGen (pyStr "p") true false
      = .ok (List.replicate 60 'a', pyStr "A. B.") := by
  have h := generate_retry_policy exGen (pyStr "p") (pyStr "not-json")
    llm_no_json_error (by rfl) (by rfl)
  refine ⟨by rfl, by rfl, h.1, ?_⟩
  refine h.2.2.1 (canonicalCopyObject (List.replicate 60 'a') (pyStr "A. B."))
    (List.replicate 60 'a', pyStr "A. B.") ?_ ?_
  · rw [exGen]
    rw [if_neg (by decide)]
  · rfl

/-! ## `LlmCopywriter._generate_with_timeout` -/

/-- The `LLM_TIMEOUT` error (details `{"timeoutSeconds": ...}` omitted). -/
def llm_timeout_error : AiServiceError :=
  { code := pyStr "LLM_TIMEOUT"
    message := pyStr "LLM inference timed out."
    http_status := 502 }

/-- The wall-clock behaviour of one blocking `pipeline.generate` call: the
time after its start at which it returns (`none` when it never returns) and
the value it produces. -/
structure BlockingCall where
  finish_time : Option ℚ
  value : PyStr

/-- `LlmCopywriter._generate_with_timeout`, with wall-clock time as data.
The model follows the source line by line together with the documented
semantics of the Python constructs it uses: if `timeout_seconds <= 0` the
call runs synchronously (the governor returns when the call does);
otherwise `future.result(timeout)` returns the value when the call finishes
within the budget and raises `FuturesTimeoutError` at expiry — but leaving
the `with ThreadPoolExecutor(...)` block runs `shutdown(wait=True)`, which
joins the worker thread, so the raised `LLM_TIMEOUT` reaches the caller only
once the underlying call itself finishes.  The result pairs the time at
which the governor returns with its outcome; `none` means the governor never
returns. -/
def generate_with_timeout (call : BlockingCall) (timeout_seconds : ℚ) :
    Option (ℚ × Except AiServiceError PyStr) :=
  if timeout_seconds ≤ 0 then
    call.finish_time.map (fun t => (t, .ok call.value))
  else
    match call.finish_time with
    | some t =>
      if t ≤ timeout_seconds then some (t, .ok call.value)
      else some (t, .error llm_timeout_error)
    | none => none

/-- C8: evaluation of the deadline governor at the claim's failing inputs.
A generation call that blocks forever makes the governor itself block
forever — no `LLM_TIMEOUT` outcome is ever surfaced, let alone within
`timeout + ε`; a call that finishes at `t = 1000` with a 5-second budget
surfaces `LLM_TIMEOUT` only at `t = 1000` (the executor-context join waits
for the worker).  The non-positive-timeout synchronous opt-out, the in-time
success path, and the single-outcome shape do hold. -/
theorem generate_with_timeout_bug :
    generate_with_timeout { finish_time := none, value := pyStr "x" } 5 = none ∧
    generate_with_timeout { finish_time := some 1000, value := pyStr "x" } 5
      = some (1000, .error llm_timeout_error) ∧
    generate_with_timeout { finish_time := some 3, value := pyStr "x" } 5
      = some (3, .ok (pyStr "x")) ∧
    generate_with_timeout { finish_time := some 3, value := pyStr "x" } 0
      = some (3, .ok (pyStr "x")) ∧
    generate_with_timeout { finish_time := none, value := pyStr "x" } 0 = none ∧
    llm_timeout_error.code = pyStr "LLM_TIMEOUT" := by
  refine ⟨?_, ?_, ?_, ?_, ?_, rfl⟩
  · rw [generate_with_timeout, if_neg (by norm_num)]
  · rw [generate_with_timeout, if_neg (by norm_num)]
    simp only []
    rw [if_neg (by norm_num)]
  · rw [generate_with_timeout, if_neg (by norm_num)]
    simp only []
    rw [if_pos (by norm_num)]
  · rw [generate_with_timeout, if_pos (by norm_num)]
    rfl
  · rw [generate_with_timeout, if_pos (by norm_num)]
    rfl

end TvWallau
